import Mathlib

/-!
# Shallow embedding of the `knobs` configuration library

The repository is a typed, origin-aware runtime configuration registry
written in Go.  The sources contain two revisions of the resolution
engine, both embedded here because the claims reference both:

* the current scope-based revision (`knob.go`: `Definition`,
  `Scope.get`, `GetScope`, `SetScope`, `DeriveScope`, with plain-string
  `EnvVar` values and a `Parse func(string) (T, error)` step), and
* the earlier generic revision (`envvar.go`: `EnvVar[T]` whose
  `getValue` returns `(T, bool)`, with the matching initializer that
  scans sources until one reports `ok`).

Go's `any`-typed stored values are modelled by a type parameter `V`;
`nil` interfaces become `Option.none`.  Go runtime panics (nil type
assertion, nil pointer dereference through the embedded `*definition`)
are modelled with `Except Fault`.  `os.LookupEnv` is a pure
`String → Option String` parameter.  Recursive parent resolution uses
explicit fuel (the Go code would not terminate on a cyclic parent chain
either).  `sync.Once` is modelled by a `onceDone` flag plus a ghost
`initCount` counting executions of the initializer body; each exported
operation holds the relevant locks in the source, so interleavings of
concurrent calls correspond to sequences of these atomic operations.
-/

namespace Knobs

/-- `type Origin int`: origins are integers, `Default`, `Env`, `Code`
are the iota constants 0, 1, 2; users may define further origins. -/
abbrev Origin := Int

/-- The `Default` origin (iota value 0). -/
def OriginDefault : Origin := 0

/-- The `Env` origin (iota value 1). -/
def OriginEnv : Origin := 1

/-- The `Code` origin (iota value 2). -/
def OriginCode : Origin := 2

/-- The process environment, `os.LookupEnv`: `none` for an unset
variable, `some raw` for a set one. -/
abbrev EnvMap := String → Option String

/-- Go runtime faults that the embedded operations can hit. -/
inductive Fault where
  /-- `s.current.(T)` evaluated with `s.current == nil` panics. -/
  | nilTypeAssertion
  /-- A field access through the nil embedded `*definition` pointer
  (`s.origins` with `s.definition == nil`) panics. -/
  | nilDefinitionField
  /-- An operation through a nil `*Scope` (the world model's lookup
  missed); never reached in the theorems below. -/
  | nilScope
  /-- Modelling artifact: the fuel for recursive parent resolution ran
  out (the Go recursion would not return on such an input either). -/
  | outOfFuel
deriving DecidableEq, Repr

/-- Association lists standing in for Go maps; insertion shadows. -/
def lookupL {α : Type} : List (Int × α) → Int → Option α
  | [], _ => none
  | (k2, v) :: rest, k => if k2 = k then some v else lookupL rest k

/-- Go map assignment `m[k] = v`, observationally (later entries shadow
earlier ones under `lookupL`). -/
def insertL {α : Type} (l : List (Int × α)) (k : Int) (v : α) : List (Int × α) :=
  (k, v) :: l

/-- Go's `strings.TrimSpace`: drop leading and trailing whitespace.
Written over the character list so that it evaluates on literals. -/
def trimSpace (s : String) : String :=
  ⟨((s.data.dropWhile Char.isWhitespace).reverse.dropWhile Char.isWhitespace).reverse⟩

/-- `EnvVar` of the scope-based revision: a key plus an optional
`Transform func(string) string`. -/
structure EnvVar where
  Key : String
  Transform : Option (String → String)

/-- `EnvVar.getValue` of the scope-based revision: an unset variable
yields `""`; otherwise the raw value is whitespace-trimmed and passed
through `Transform` when one is attached. -/
def EnvVar.getValue (env : EnvMap) (e : EnvVar) : String :=
  match env e.Key with
  | none => ""
  | some raw =>
    let v := trimSpace raw
    match e.Transform with
    | some t => t v
    | none => v

/-- `Definition[T]` of the scope-based revision.  `Parse` returns
`(T, error)`, modelled as `Except String V`; `Requires` is
documentation-only and omitted. -/
structure Definition (V : Type) where
  Default : V
  Origins : List Origin
  EnvVars : List EnvVar
  Parse : Option (String → Except String V)

/-- Per-(scope, knob) `state`.  The embedded `*definition` pointer is
`definition` (`none` for derived or unregistered knobs; the internal
`definition` struct stores the same data as the public `Definition`, so
we store that directly, with `origins` membership read off `Origins`).
`onceDone` is the `sync.Once` done flag; `initCount` is a ghost counter
of initializer-body executions. -/
structure State (V : Type) where
  definition : Option (Definition V)
  current : Option V
  origin : Origin
  parent : Int
  onceDone : Bool
  initCount : Nat

/-- The `v` left in the loop variable of `Definition.initializer` after
`for _, e = range def.EnvVars { if v = e.getValue(); v != "" { break } }`:
the first non-empty `getValue`, or `""` when every source yields `""`. -/
def firstEnvValue (env : EnvMap) : List EnvVar → String
  | [] => ""
  | e :: rest =>
    let v := e.getValue env
    if v = "" then firstEnvValue env rest else v

/-- `Definition.initializer` of the scope-based revision: set `current`
to the default, scan sources for the first non-empty value, and if one
is found mark the origin `Env` and overwrite `current` with the parsed
value when `Parse` is present and succeeds (logging, a no-op here,
covers the `Parse == nil` and error branches). -/
def Definition.initializer {V : Type} (env : EnvMap) (d : Definition V)
    (s : State V) : State V :=
  let s1 := { s with current := some d.Default }
  let v := firstEnvValue env d.EnvVars
  if v = "" then s1
  else
    let s2 := { s1 with origin := OriginEnv }
    match d.Parse with
    | none => s2
    | some p =>
      match p v with
      | .ok final => { s2 with current := some final }
      | .error _ => s2

/-- `state.init`: return immediately for a nil definition (derived
knob); otherwise run the definition's initializer under `sync.Once`. -/
def State.init {V : Type} (env : EnvMap) (s : State V) : State V :=
  match s.definition with
  | none => s
  | some d =>
    if s.onceDone then s
    else d.initializer env { s with onceDone := true, initCount := s.initCount + 1 }

/-- The registered definitions, `registry map[int]*definition`. -/
abbrev Registry (V : Type) := List (Int × Definition V)

/-- A `Scope`: an isolated table mapping knob identifiers to states. -/
structure Scope (V : Type) where
  states : List (Int × State V)

/-- `Scope.get`: return the stored state if present; otherwise build one
from the registry entry (nil for unregistered ids), unconditionally
initialize it, store it, and return it.  Every path returns a state, so
the result type is `State V × Scope V` with no `Option`, mirroring that
no Go return path yields a nil `*state`. -/
def Scope.get {V : Type} (env : EnvMap) (reg : Registry V) (sc : Scope V)
    (kn : Int) : State V × Scope V :=
  match lookupL sc.states kn with
  | some s => (s, sc)
  | none =>
    let s0 : State V :=
      { definition := lookupL reg kn, current := none, origin := OriginDefault,
        parent := 0, onceDone := false, initCount := 0 }
    let s := State.init env s0
    (s, { states := insertL sc.states kn s })

/-- `GetScope`: fetch (or create) the state; return `current` when set,
recurse to the parent in the same scope when `parent > 0`, and
otherwise evaluate `s.current.(T)` on a nil interface — a panic,
modelled as `Fault.nilTypeAssertion`.  The `s == nil` fallback branch of
the source cannot be modelled as reachable because `Scope.get` returns
a state on every path. -/
def GetScope {V : Type} (env : EnvMap) (reg : Registry V) :
    Nat → Scope V → Int → Except Fault V × Scope V
  | 0, sc, _ => (.error .outOfFuel, sc)
  | fuel + 1, sc, kn =>
    let (s, sc1) := Scope.get env reg sc kn
    match s.current with
    | some v => (.ok v, sc1)
    | none =>
      if 0 < s.parent then GetScope env reg fuel sc1 s.parent
      else (.error .nilTypeAssertion, sc1)

/-- `SetScope`: fetch (or create) the state; for a non-`Code` origin
consult `s.origins` — a nil-definition dereference when the state has no
definition, a silent return when the origin is not in the allowed set —
then store the value and origin. -/
def SetScope {V : Type} (env : EnvMap) (reg : Registry V) (sc : Scope V)
    (kn : Int) (origin : Origin) (value : V) : Except Fault Unit × Scope V :=
  let (s, sc1) := Scope.get env reg sc kn
  if origin = OriginCode then
    (.ok (), { states := insertL sc1.states kn { s with origin := origin, current := some value } })
  else
    match s.definition with
    | none => (.error .nilDefinitionField, sc1)
    | some d =>
      if origin ∈ d.Origins then
        (.ok (), { states := insertL sc1.states kn { s with origin := origin, current := some value } })
      else
        (.ok (), sc1)

/-- `DeriveScope` body after the counter allocates `dk`: store a fresh
state carrying only the parent id. -/
def DeriveScope {V : Type} (sc : Scope V) (parent : Int) (dk : Int) : Scope V :=
  { states := insertL sc.states dk
      { definition := none, current := none, origin := OriginDefault,
        parent := parent, onceDone := false, initCount := 0 } }

/-- `Register` body after the counter allocates `k`: store the
definition in the registry. -/
def Register {V : Type} (reg : Registry V) (k : Int) (d : Definition V) :
    Registry V :=
  insertL reg k d

/-! ## The earlier generic revision (`envvar.go` and its initializer)

`EnvVar[T]` carries a `transform func(string) (T, bool)`; `getValue`
returns `(T, bool)`, modelled as `Option V`.  The branch
`if _, ok := any(zero).(string); ok` tests at runtime whether the type
parameter `T` is `string`; the embedding receives that reflection as a
`strCast : Option (String → V)` argument, `some` (the identity
embedding) exactly when `V` plays the role of Go's `string` and `none`
otherwise. -/

/-- `EnvVar[T]` of the generic revision. -/
structure EnvVarG (V : Type) where
  key : String
  transform : Option (String → Option V)

/-- `EnvVar.getValue` of the generic revision: an unset variable yields
`(zero, false)`; a set one is trimmed, then passed to the transform when
present; without a transform the trimmed string itself is returned when
`T` is `string`, and `(zero, false)` otherwise. -/
def EnvVarG.getValue {V : Type} (env : EnvMap) (strCast : Option (String → V))
    (e : EnvVarG V) : Option V :=
  match env e.key with
  | none => none
  | some raw =>
    let v := trimSpace raw
    match e.transform with
    | some t => t v
    | none =>
      match strCast with
      | some c => some (c v)
      | none => none

/-- `Definition[T]` of the generic revision: sources carry their own
typed transforms, there is no separate `Parse` step. -/
structure DefinitionG (V : Type) where
  Default : V
  Origins : List Origin
  EnvVars : List (EnvVarG V)

/-- The relevant fields of the generic revision's `state`. -/
structure StateG (V : Type) where
  current : Option V
  origin : Origin

/-- The scan of the generic initializer's loop: the first source whose
`getValue` reports `ok` wins; rejected or absent sources are skipped. -/
def resolveEnvG {V : Type} (env : EnvMap) (strCast : Option (String → V)) :
    List (EnvVarG V) → Option V
  | [] => none
  | e :: rest =>
    match e.getValue env strCast with
    | some v => some v
    | none => resolveEnvG env strCast rest

/-- `Definition.initializer` of the generic revision: take the first
source that reports `ok`, setting origin `Env`; otherwise fall back to
the default, leaving the origin untouched. -/
def DefinitionG.initializer {V : Type} (env : EnvMap)
    (strCast : Option (String → V)) (d : DefinitionG V) (s : StateG V) : StateG V :=
  match resolveEnvG env strCast d.EnvVars with
  | some v => { s with origin := OriginEnv, current := some v }
  | none => { s with current := some d.Default }

/-- A fresh generic-revision state as built by `Register` there. -/
def freshStateG {V : Type} : StateG V :=
  { current := none, origin := OriginDefault }

/-- The state `Scope.get` builds for a fresh access to a registered
knob: the one-time initializer has run exactly once. -/
def resolvedState {V : Type} (env : EnvMap) (d : Definition V) : State V :=
  d.initializer env
    { definition := some d, current := none, origin := OriginDefault,
      parent := 0, onceDone := true, initCount := 1 }

/-! ## A world of scopes, and operation traces

Distinct `*Scope` objects of the source are modelled as entries of a
world table keyed by a scope identity, so that an update through one
scope pointer is an update of that entry only. -/

/-- All live scopes, keyed by pointer identity. -/
structure World (V : Type) where
  scopes : List (Int × Scope V)

/-- `SetScope` through the scope pointer `sid`. -/
def World.setScope {V : Type} (env : EnvMap) (reg : Registry V) (w : World V)
    (sid kn : Int) (origin : Origin) (value : V) : World V :=
  match lookupL w.scopes sid with
  | none => w
  | some sc => { scopes := insertL w.scopes sid (SetScope env reg sc kn origin value).2 }

/-- `GetScope` through the scope pointer `sid` (result value only). -/
def World.getScope {V : Type} (env : EnvMap) (reg : Registry V) (w : World V)
    (fuel : Nat) (sid kn : Int) : Except Fault V :=
  match lookupL w.scopes sid with
  | none => .error .nilScope
  | some sc => (GetScope env reg fuel sc kn).1

/-- One exported operation on a scope.  Each such call holds the scope
and state locks in the source, so concurrent executions interleave as
sequences of these atomic steps. -/
inductive Op (V : Type) where
  | get (kn : Int)
  | set (kn : Int) (origin : Origin) (value : V)
  | derive (parent dk : Int)
deriving DecidableEq

/-- Apply one operation to a scope (state effect only). -/
def stepOp {V : Type} (env : EnvMap) (reg : Registry V) (fuel : Nat)
    (sc : Scope V) : Op V → Scope V
  | .get kn => (GetScope env reg fuel sc kn).2
  | .set kn origin v => (SetScope env reg sc kn origin v).2
  | .derive parent dk => DeriveScope sc parent dk

/-- Run a trace of operations. -/
def runOps {V : Type} (env : EnvMap) (reg : Registry V) (fuel : Nat) :
    Scope V → List (Op V) → Scope V
  | sc, [] => sc
  | sc, op :: rest => runOps env reg fuel (stepOp env reg fuel sc op) rest

/-- Every state a scope holds has seen its initializer body run at most
once. -/
def ScopeCountInv {V : Type} (sc : Scope V) : Prop :=
  ∀ k s, lookupL sc.states k = some s → s.initCount ≤ 1

/-! ## Concrete fixtures (used by witnesses and counterexamples) -/

/-- An environment with every variable unset. -/
def envNone : EnvMap := fun _ => none

/-- Only `B` is set, to `" 2 "` (whitespace around the digit). -/
def envB : EnvMap := fun k => if k = "B" then some " 2 " else none

/-- `A` is set to `"bad"`, `B` to `"2"`. -/
def envBadB : EnvMap :=
  fun k => if k = "A" then some "bad" else if k = "B" then some "2" else none

/-- Only `K` is set, to `"5"`. -/
def envK : EnvMap := fun k => if k = "K" then some "5" else none

/-- A parse step accepting exactly `"2"` (as the int 2). -/
def parse2 : String → Except String Int :=
  fun s => if s = "2" then .ok 2 else .error "knobs: invalid value"

/-- Source `A`, no transform. -/
def evA : EnvVar := { Key := "A", Transform := none }

/-- Source `B`, no transform. -/
def evB : EnvVar := { Key := "B", Transform := none }

/-- Source `A` with a transform that rejects every value (returns the
empty string). -/
def evARejecting : EnvVar := { Key := "A", Transform := some (fun _ => "") }

/-- A knob definition: default 7, sources `A` then `B`, parse `parse2`,
no extra allowed origins. -/
def defAB : Definition Int :=
  { Default := 7, Origins := [], EnvVars := [evA, evB], Parse := some parse2 }

/-- A knob definition with no sources and default 7. -/
def defPlain : Definition Int :=
  { Default := 7, Origins := [], EnvVars := [], Parse := none }

/-- A registry holding `defAB` as knob 1. -/
def regAB : Registry Int := [(1, defAB)]

/-- A registry holding `defPlain` as knob 1. -/
def regPlain : Registry Int := [(1, defPlain)]

/-- The empty scope. -/
def scEmpty : Scope Int := { states := [] }

/-- A scope in which knob 2 was derived from knob 1. -/
def scDerived : Scope Int := DeriveScope scEmpty 1 2

/-- Generic-revision source whose transform rejects everything. -/
def egReject : EnvVarG Int := { key := "A", transform := some (fun _ => none) }

/-- Generic-revision source accepting exactly `"2"`. -/
def egParse2 : EnvVarG Int :=
  { key := "B", transform := some (fun s => if s = "2" then some 2 else none) }

/-- Generic-revision source with no transform over a non-string type. -/
def egPlainK : EnvVarG Int := { key := "K", transform := none }

/-- Generic-revision definition: default 7, sources `A` then `B`. -/
def defGAB : DefinitionG Int :=
  { Default := 7, Origins := [], EnvVars := [egReject, egParse2] }

/-- A world holding two distinct scopes (ids 1 and 2), both empty. -/
def wTwo : World Int := { scopes := [(1, scEmpty), (2, scEmpty)] }

/-! ## Association-list lemmas -/

theorem lookupL_insertL_self {α : Type} (l : List (Int × α)) (k : Int) (v : α) :
    lookupL (insertL l k v) k = some v := by
  simp [lookupL, insertL]

theorem lookupL_insertL_ne {α : Type} (l : List (Int × α)) {k k2 : Int} (v : α)
    (h : k ≠ k2) : lookupL (insertL l k v) k2 = lookupL l k2 := by
  simp [lookupL, insertL, h]

/-! ## Unfolding lemmas for `Scope.get` -/

theorem Scope.get_found {V : Type} (env : EnvMap) (reg : Registry V)
    (sc : Scope V) (kn : Int) (s : State V)
    (h : lookupL sc.states kn = some s) :
    Scope.get env reg sc kn = (s, sc) := by
  simp [Scope.get, h]

theorem Scope.get_fresh {V : Type} (env : EnvMap) (reg : Registry V)
    (sc : Scope V) (kn : Int)
    (h : lookupL sc.states kn = none) :
    Scope.get env reg sc kn =
      (State.init env
        { definition := lookupL reg kn, current := none, origin := OriginDefault,
          parent := 0, onceDone := false, initCount := 0 },
       { states := insertL sc.states kn (State.init env
          { definition := lookupL reg kn, current := none, origin := OriginDefault,
            parent := 0, onceDone := false, initCount := 0 }) }) := by
  simp [Scope.get, h]

/-- Existing entries are never modified by `Scope.get`: it only inserts
at a previously absent key. -/
theorem Scope.get_preserves {V : Type} (env : EnvMap) (reg : Registry V)
    (sc : Scope V) (kn k : Int) (s : State V)
    (h : lookupL sc.states k = some s) :
    lookupL ((Scope.get env reg sc kn).2).states k = some s := by
  rcases hlook : lookupL sc.states kn with _ | s2
  · have hne : kn ≠ k := by
      intro he
      rw [he, h] at hlook
      exact Option.noConfusion hlook
    rw [Scope.get_fresh env reg sc kn hlook]
    simpa [lookupL_insertL_ne _ _ hne] using h
  · rw [Scope.get_found env reg sc kn s2 hlook]
    exact h

/-! ## Resolution lemmas for the scope-based initializer -/

theorem firstEnvValue_append {env : EnvMap} {pre : List EnvVar}
    (l : List EnvVar) (hpre : ∀ e ∈ pre, e.getValue env = "") :
    firstEnvValue env (pre ++ l) = firstEnvValue env l := by
  induction pre with
  | nil => rfl
  | cons e rest ih =>
    have he : e.getValue env = "" := hpre e (List.mem_cons_self e rest)
    have hrest : ∀ e2 ∈ rest, e2.getValue env = "" := fun e2 h2 =>
      hpre e2 (List.mem_cons_of_mem e h2)
    simp [firstEnvValue, he, ih hrest]

theorem firstEnvValue_cons_of_ne {env : EnvMap} {e : EnvVar}
    (rest : List EnvVar) (hv : e.getValue env ≠ "") :
    firstEnvValue env (e :: rest) = e.getValue env := by
  simp [firstEnvValue, hv]

theorem firstEnvValue_all_empty {env : EnvMap} {l : List EnvVar}
    (h : ∀ e ∈ l, e.getValue env = "") : firstEnvValue env l = "" := by
  induction l with
  | nil => rfl
  | cons e rest ih =>
    have he : e.getValue env = "" := h e (List.mem_cons_self e rest)
    have hrest : ∀ e2 ∈ rest, e2.getValue env = "" := fun e2 h2 =>
      h e2 (List.mem_cons_of_mem e h2)
    simp [firstEnvValue, he, ih hrest]

theorem initializer_of_parsed {V : Type} {env : EnvMap} {d : Definition V}
    {p : String → Except String V} {final : V} (s : State V)
    (hv : firstEnvValue env d.EnvVars ≠ "")
    (hp : d.Parse = some p)
    (hok : p (firstEnvValue env d.EnvVars) = .ok final) :
    d.initializer env s = { s with origin := OriginEnv, current := some final } := by
  simp [Definition.initializer, hv, hp, hok]

theorem initializer_of_all_empty {V : Type} {env : EnvMap} {d : Definition V}
    (s : State V) (hv : firstEnvValue env d.EnvVars = "") :
    d.initializer env s = { s with current := some d.Default } := by
  simp [Definition.initializer, hv]

theorem Scope.get_fresh_registered {V : Type} (env : EnvMap) (reg : Registry V)
    (sc : Scope V) (k : Int) (d : Definition V)
    (hreg : lookupL reg k = some d)
    (habs : lookupL sc.states k = none) :
    Scope.get env reg sc k =
      (resolvedState env d,
       { states := insertL sc.states k (resolvedState env d) }) := by
  rw [Scope.get_fresh env reg sc k habs, hreg]
  simp [State.init, resolvedState]

theorem GetScope_fresh_registered {V : Type} (env : EnvMap) (reg : Registry V)
    (sc : Scope V) (k : Int) (d : Definition V) (fuel : Nat) (w : V)
    (hreg : lookupL reg k = some d)
    (habs : lookupL sc.states k = none)
    (hw : (resolvedState env d).current = some w) :
    GetScope env reg (fuel + 1) sc k =
      (.ok w, { states := insertL sc.states k (resolvedState env d) }) := by
  rw [GetScope, Scope.get_fresh_registered env reg sc k d hreg habs]
  simp [hw]

/-! ## Resolution lemmas for the generic initializer -/

theorem resolveEnvG_append {V : Type} {env : EnvMap}
    {strCast : Option (String → V)} {pre : List (EnvVarG V)}
    (l : List (EnvVarG V)) (hpre : ∀ e ∈ pre, e.getValue env strCast = none) :
    resolveEnvG env strCast (pre ++ l) = resolveEnvG env strCast l := by
  induction pre with
  | nil => rfl
  | cons e rest ih =>
    have he : e.getValue env strCast = none := hpre e (List.mem_cons_self e rest)
    have hrest : ∀ e2 ∈ rest, e2.getValue env strCast = none := fun e2 h2 =>
      hpre e2 (List.mem_cons_of_mem e h2)
    simp [resolveEnvG, he, ih hrest]

theorem resolveEnvG_cons_of_some {V : Type} {env : EnvMap}
    {strCast : Option (String → V)} {e : EnvVarG V} {v : V}
    (rest : List (EnvVarG V)) (hv : e.getValue env strCast = some v) :
    resolveEnvG env strCast (e :: rest) = some v := by
  simp [resolveEnvG, hv]

theorem resolveEnvG_all_none {V : Type} {env : EnvMap}
    {strCast : Option (String → V)} {l : List (EnvVarG V)}
    (h : ∀ e ∈ l, e.getValue env strCast = none) :
    resolveEnvG env strCast l = none := by
  induction l with
  | nil => rfl
  | cons e rest ih =>
    have he : e.getValue env strCast = none := h e (List.mem_cons_self e rest)
    have hrest : ∀ e2 ∈ rest, e2.getValue env strCast = none := fun e2 h2 =>
      h e2 (List.mem_cons_of_mem e h2)
    simp [resolveEnvG, he, ih hrest]

/-! ## Field bookkeeping of the scope-based initializer -/

theorem initializer_of_parse_error {V : Type} {env : EnvMap} {d : Definition V}
    {p : String → Except String V} {msg : String} (s : State V)
    (hv : firstEnvValue env d.EnvVars ≠ "")
    (hp : d.Parse = some p)
    (herr : p (firstEnvValue env d.EnvVars) = .error msg) :
    d.initializer env s =
      { s with origin := OriginEnv, current := some d.Default } := by
  simp [Definition.initializer, hv, hp, herr]

theorem initializer_meta {V : Type} (env : EnvMap) (d : Definition V)
    (s : State V) :
    (d.initializer env s).definition = s.definition ∧
    (d.initializer env s).parent = s.parent ∧
    (d.initializer env s).onceDone = s.onceDone ∧
    (d.initializer env s).initCount = s.initCount := by
  unfold Definition.initializer
  dsimp only
  split
  · exact ⟨rfl, rfl, rfl, rfl⟩
  · split
    · exact ⟨rfl, rfl, rfl, rfl⟩
    · split
      · exact ⟨rfl, rfl, rfl, rfl⟩
      · exact ⟨rfl, rfl, rfl, rfl⟩

theorem initializer_current_isSome {V : Type} (env : EnvMap) (d : Definition V)
    (s : State V) : ((d.initializer env s).current).isSome := by
  unfold Definition.initializer
  dsimp only
  split
  · rfl
  · split
    · rfl
    · split
      · rfl
      · rfl

theorem resolvedState_definition {V : Type} (env : EnvMap) (d : Definition V) :
    (resolvedState env d).definition = some d :=
  (initializer_meta env d _).1

theorem resolvedState_initCount {V : Type} (env : EnvMap) (d : Definition V) :
    (resolvedState env d).initCount = 1 :=
  (initializer_meta env d _).2.2.2

theorem resolvedState_current_isSome {V : Type} (env : EnvMap)
    (d : Definition V) : ((resolvedState env d).current).isSome :=
  initializer_current_isSome env d _

/-! ## Shape lemmas for `GetScope` and `SetScope` -/

theorem GetScope_found_current {V : Type} (env : EnvMap) (reg : Registry V)
    (sc : Scope V) (kn : Int) (fuel : Nat) (s : State V) (v : V)
    (hlook : lookupL sc.states kn = some s)
    (hcur : s.current = some v) :
    GetScope env reg (fuel + 1) sc kn = (.ok v, sc) := by
  rw [GetScope, Scope.get_found env reg sc kn s hlook]
  simp [hcur]

theorem GetScope_found_parent {V : Type} (env : EnvMap) (reg : Registry V)
    (sc : Scope V) (kn : Int) (fuel : Nat) (s : State V)
    (hlook : lookupL sc.states kn = some s)
    (hcur : s.current = none)
    (hpar : 0 < s.parent) :
    GetScope env reg (fuel + 1) sc kn = GetScope env reg fuel sc s.parent := by
  rw [GetScope, Scope.get_found env reg sc kn s hlook]
  simp [hcur, hpar]

theorem Scope.get_lookup_other {V : Type} (env : EnvMap) (reg : Registry V)
    (sc : Scope V) {kn k2 : Int} (h : kn ≠ k2) :
    lookupL ((Scope.get env reg sc kn).2).states k2 = lookupL sc.states k2 := by
  rcases hlook : lookupL sc.states kn with _ | s
  · rw [Scope.get_fresh env reg sc kn hlook]
    exact lookupL_insertL_ne _ _ h
  · rw [Scope.get_found env reg sc kn s hlook]

theorem SetScope_lookup_other {V : Type} (env : EnvMap) (reg : Registry V)
    (sc : Scope V) {kn k2 : Int} (origin : Origin) (v : V) (h : kn ≠ k2) :
    lookupL ((SetScope env reg sc kn origin v).2).states k2 =
      lookupL sc.states k2 := by
  rcases hget : Scope.get env reg sc kn with ⟨s, sc1⟩
  have h2 : lookupL sc1.states k2 = lookupL sc.states k2 := by
    have := @Scope.get_lookup_other V env reg sc kn k2 h
    rw [hget] at this
    exact this
  unfold SetScope
  rw [hget]
  dsimp only
  split
  · simpa [lookupL_insertL_ne _ _ h] using h2
  · cases s.definition with
    | none => exact h2
    | some d =>
      dsimp only
      split
      · simpa [lookupL_insertL_ne _ _ h] using h2
      · exact h2

theorem GetScope_preserves {V : Type} (env : EnvMap) (reg : Registry V)
    (fuel : Nat) :
    ∀ (sc : Scope V) (kn k : Int) (s : State V),
      lookupL sc.states k = some s →
      lookupL ((GetScope env reg fuel sc kn).2).states k = some s := by
  induction fuel with
  | zero => intro sc kn k s h; exact h
  | succ fuel ih =>
    intro sc kn k s h
    rcases hget : Scope.get env reg sc kn with ⟨s1, sc1⟩
    have h1 : lookupL sc1.states k = some s := by
      have := Scope.get_preserves env reg sc kn k s h
      rw [hget] at this
      exact this
    rw [GetScope, hget]
    dsimp only
    cases s1.current with
    | some v => exact h1
    | none =>
      dsimp only
      split
      · exact ih sc1 s1.parent k s h1
      · exact h1

theorem SetScope_code {V : Type} (env : EnvMap) (reg : Registry V)
    (sc : Scope V) (kn : Int) (v : V) :
    SetScope env reg sc kn OriginCode v =
      (.ok (),
        { states :=
            insertL ((Scope.get env reg sc kn).2).states kn
              ({ (Scope.get env reg sc kn).1 with
                  origin := OriginCode, current := some v }) }) := by
  rcases hget : Scope.get env reg sc kn with ⟨s, sc1⟩
  unfold SetScope
  rw [hget]
  simp

theorem SetScope_disallowed {V : Type} (env : EnvMap) (reg : Registry V)
    (sc : Scope V) (kn : Int) (origin : Origin) (v : V) (d : Definition V)
    (ho : origin ≠ OriginCode)
    (hd : ((Scope.get env reg sc kn).1).definition = some d)
    (hmem : origin ∉ d.Origins) :
    SetScope env reg sc kn origin v = (.ok (), (Scope.get env reg sc kn).2) := by
  rcases hget : Scope.get env reg sc kn with ⟨s, sc1⟩
  rw [hget] at hd
  have hd2 : s.definition = some d := hd
  unfold SetScope
  rw [hget]
  simp [ho, hd2, hmem]

theorem SetScope_nil_definition {V : Type} (env : EnvMap) (reg : Registry V)
    (sc : Scope V) (kn : Int) (origin : Origin) (v : V)
    (ho : origin ≠ OriginCode)
    (hd : ((Scope.get env reg sc kn).1).definition = none) :
    SetScope env reg sc kn origin v =
      (.error .nilDefinitionField, (Scope.get env reg sc kn).2) := by
  rcases hget : Scope.get env reg sc kn with ⟨s, sc1⟩
  rw [hget] at hd
  have hd2 : s.definition = none := hd
  unfold SetScope
  rw [hget]
  simp [ho, hd2]

/-! ## Claims -/

/-- C1.  For every registered `Definition` with an ordered list of env
sources, `Get` after `Register` returns the value of the first source
whose environment variable is present (after trimming surrounding
whitespace) and whose transform/parse step accepts it, with last-write
origin `Env`; earlier listed sources take precedence and absent or
empty variables are skipped; if no source yields a value, `Get` returns
the `Default` and the origin remains `Default`.  Parts 1 and 2 state
this over the scope-based revision's full `GetScope` path (a source is
skipped when its `getValue` — trimmed, transformed — is empty, and
acceptance is the `Parse` step succeeding); parts 3 and 4 state it over
the generic revision's initializer (acceptance is `getValue` reporting
ok), for every `strCast`, i.e. for string and non-string `T` alike. -/
theorem get_resolves_first_env_source :
    (∀ (V : Type) (env : EnvMap) (reg : Registry V) (sc : Scope V)
        (k : Int) (d : Definition V) (fuel : Nat) (pre rest : List EnvVar)
        (e : EnvVar) (p : String → Except String V) (final : V),
        lookupL reg k = some d →
        lookupL sc.states k = none →
        d.EnvVars = pre ++ e :: rest →
        (∀ e2 ∈ pre, e2.getValue env = "") →
        e.getValue env ≠ "" →
        d.Parse = some p →
        p (e.getValue env) = .ok final →
        (GetScope env reg (fuel + 1) sc k).1 = .ok final ∧
        ∃ s, lookupL ((GetScope env reg (fuel + 1) sc k).2).states k = some s ∧
          s.current = some final ∧ s.origin = OriginEnv) ∧
    (∀ (V : Type) (env : EnvMap) (reg : Registry V) (sc : Scope V)
        (k : Int) (d : Definition V) (fuel : Nat),
        lookupL reg k = some d →
        lookupL sc.states k = none →
        (∀ e ∈ d.EnvVars, e.getValue env = "") →
        (GetScope env reg (fuel + 1) sc k).1 = .ok d.Default ∧
        ∃ s, lookupL ((GetScope env reg (fuel + 1) sc k).2).states k = some s ∧
          s.current = some d.Default ∧ s.origin = OriginDefault) ∧
    (∀ (V : Type) (env : EnvMap) (strCast : Option (String → V))
        (d : DefinitionG V) (pre rest : List (EnvVarG V)) (e : EnvVarG V)
        (v : V),
        d.EnvVars = pre ++ e :: rest →
        (∀ e2 ∈ pre, e2.getValue env strCast = none) →
        e.getValue env strCast = some v →
        d.initializer env strCast freshStateG =
          { current := some v, origin := OriginEnv }) ∧
    (∀ (V : Type) (env : EnvMap) (strCast : Option (String → V))
        (d : DefinitionG V),
        (∀ e ∈ d.EnvVars, e.getValue env strCast = none) →
        d.initializer env strCast freshStateG =
          { current := some d.Default, origin := OriginDefault }) := by
  refine ⟨?_, ?_, ?_, ?_⟩
  · intro V env reg sc k d fuel pre rest e p final hreg habs hsplit hpre hne hp hok
    have hfv : firstEnvValue env d.EnvVars = e.getValue env := by
      rw [hsplit, firstEnvValue_append _ hpre, firstEnvValue_cons_of_ne _ hne]
    have hres : resolvedState env d =
        { definition := some d, current := some final, origin := OriginEnv,
          parent := 0, onceDone := true, initCount := 1 } := by
      unfold resolvedState
      rw [initializer_of_parsed _ (by rw [hfv]; exact hne) hp
        (by rw [hfv]; exact hok)]
    have hw : (resolvedState env d).current = some final := by rw [hres]
    have hG := GetScope_fresh_registered env reg sc k d fuel final hreg habs hw
    refine ⟨by rw [hG], ⟨resolvedState env d, ?_, hw, by rw [hres]⟩⟩
    rw [hG]
    exact lookupL_insertL_self _ _ _
  · intro V env reg sc k d fuel hreg habs hall
    have hfv : firstEnvValue env d.EnvVars = "" := firstEnvValue_all_empty hall
    have hres : resolvedState env d =
        { definition := some d, current := some d.Default,
          origin := OriginDefault, parent := 0, onceDone := true,
          initCount := 1 } := by
      unfold resolvedState
      rw [initializer_of_all_empty _ hfv]
    have hw : (resolvedState env d).current = some d.Default := by rw [hres]
    have hG := GetScope_fresh_registered env reg sc k d fuel d.Default hreg habs hw
    refine ⟨by rw [hG], ⟨resolvedState env d, ?_, hw, by rw [hres]⟩⟩
    rw [hG]
    exact lookupL_insertL_self _ _ _
  · intro V env strCast d pre rest e v hsplit hpre hv
    unfold DefinitionG.initializer
    rw [hsplit, resolveEnvG_append _ hpre, resolveEnvG_cons_of_some _ hv]
  · intro V env strCast d hall
    unfold DefinitionG.initializer
    rw [resolveEnvG_all_none hall]
    rfl

/-- Witness for C1 at concrete inputs: with `A` unset and `B = " 2 "`,
the registered knob resolves to the parsed `2`; with nothing set it
resolves to the default 7; and likewise for the generic initializer
with a rejecting source in front. -/
theorem get_resolves_first_env_source_witness :
    (GetScope envB regAB 1 scEmpty 1).1 = .ok 2 ∧
    (GetScope envNone regAB 1 scEmpty 1).1 = .ok 7 ∧
    DefinitionG.initializer envBadB none defGAB freshStateG =
      { current := some 2, origin := OriginEnv } ∧
    DefinitionG.initializer envNone none defGAB freshStateG =
      { current := some 7, origin := OriginDefault } := by
  refine ⟨?_, ?_, ?_, ?_⟩
  · exact (get_resolves_first_env_source.1 Int envB regAB scEmpty 1 defAB 0
      [evA] [] evB parse2 2 rfl rfl rfl
      (by intro e2 h2; rw [List.mem_singleton] at h2; subst h2; rfl)
      (by decide) rfl rfl).1
  · exact (get_resolves_first_env_source.2.1 Int envNone regAB scEmpty 1 defAB 0
      rfl rfl (by intro e h; fin_cases h <;> rfl)).1
  · exact get_resolves_first_env_source.2.2.1 Int envBadB none defGAB
      [egReject] [] egParse2 2 rfl
      (by intro e2 h2; rw [List.mem_singleton] at h2; subst h2; rfl)
      (by decide)
  · exact get_resolves_first_env_source.2.2.2 Int envNone none defGAB
      (by intro e h; fin_cases h <;> rfl)

/-- Counterexample to C2 on the scope-based revision.  Knob 1 has
sources `A` then `B`; `A = "bad"` is present but rejected by the
`Parse` step, `B = "2"` is present and would be accepted
(`parse2 (evB.getValue envBadB) = .ok 2`).  The claim says resolution
continues with `B`, so `Get` should return 2, and that only when every
source is rejected does `Get` return the default with origin `Default`.
The code instead returns the default 7 immediately — never consulting
`B` — and leaves the origin `Env`, not `Default`. -/
theorem parse_rejection_falls_to_default_counterexample :
    (GetScope envBadB regAB 2 scEmpty 1).1 = .ok 7 ∧
    (GetScope envBadB regAB 2 scEmpty 1).1 ≠ .ok 2 ∧
    parse2 (evB.getValue envBadB) = .ok 2 ∧
    lookupL ((GetScope envBadB regAB 2 scEmpty 1).2).states 1 =
      some { definition := some defAB, current := some 7,
             origin := OriginEnv, parent := 0, onceDone := true,
             initCount := 1 } := by
  have h1 : (GetScope envBadB regAB 2 scEmpty 1).1 = .ok 7 := rfl
  refine ⟨h1, ?_, rfl, rfl⟩
  rw [h1]
  simp

/-- C2 as amended.  A per-source transform that rejects a present value
(the scope-based `Transform` signals rejection by returning the empty
string; the generic `transform` by `ok = false`) causes resolution to
continue with the next source in declared order.  However, in the
scope-based revision a `Parse` failure on the first non-empty source's
value makes `Get` return the `Default` immediately, without consulting
later sources, and with origin left `Env` (part 2); only in the generic
revision does "every source absent or rejected" yield the default with
origin still `Default` (part 4). -/
theorem env_rejection_continuation_amended :
    (∀ (env : EnvMap) (e : EnvVar) (t : String → String) (raw : String)
        (rest : List EnvVar),
        e.Transform = some t →
        env e.Key = some raw →
        t (trimSpace raw) = "" →
        firstEnvValue env (e :: rest) = firstEnvValue env rest) ∧
    (∀ (V : Type) (env : EnvMap) (reg : Registry V) (sc : Scope V)
        (k : Int) (d : Definition V) (fuel : Nat) (pre rest : List EnvVar)
        (e : EnvVar) (p : String → Except String V) (msg : String),
        lookupL reg k = some d →
        lookupL sc.states k = none →
        d.EnvVars = pre ++ e :: rest →
        (∀ e2 ∈ pre, e2.getValue env = "") →
        e.getValue env ≠ "" →
        d.Parse = some p →
        p (e.getValue env) = .error msg →
        (GetScope env reg (fuel + 1) sc k).1 = .ok d.Default ∧
        ∃ s, lookupL ((GetScope env reg (fuel + 1) sc k).2).states k = some s ∧
          s.current = some d.Default ∧ s.origin = OriginEnv) ∧
    (∀ (V : Type) (env : EnvMap) (strCast : Option (String → V))
        (e : EnvVarG V) (rest : List (EnvVarG V)),
        e.getValue env strCast = none →
        resolveEnvG env strCast (e :: rest) = resolveEnvG env strCast rest) ∧
    (∀ (V : Type) (env : EnvMap) (strCast : Option (String → V))
        (d : DefinitionG V),
        (∀ e ∈ d.EnvVars, e.getValue env strCast = none) →
        d.initializer env strCast freshStateG =
          { current := some d.Default, origin := OriginDefault }) := by
  refine ⟨?_, ?_, ?_, ?_⟩
  · intro env e t raw rest ht henv hrej
    simp [firstEnvValue, EnvVar.getValue, ht, henv, hrej]
  · intro V env reg sc k d fuel pre rest e p msg hreg habs hsplit hpre hne hp herr
    have hfv : firstEnvValue env d.EnvVars = e.getValue env := by
      rw [hsplit, firstEnvValue_append _ hpre, firstEnvValue_cons_of_ne _ hne]
    have hres : resolvedState env d =
        { definition := some d, current := some d.Default,
          origin := OriginEnv, parent := 0, onceDone := true,
          initCount := 1 } := by
      unfold resolvedState
      rw [initializer_of_parse_error _ (by rw [hfv]; exact hne) hp
        (by rw [hfv]; exact herr)]
    have hw : (resolvedState env d).current = some d.Default := by rw [hres]
    have hG := GetScope_fresh_registered env reg sc k d fuel d.Default hreg habs hw
    refine ⟨by rw [hG], ⟨resolvedState env d, ?_, hw, by rw [hres]⟩⟩
    rw [hG]
    exact lookupL_insertL_self _ _ _
  · intro V env strCast e rest hrej
    simp [resolveEnvG, hrej]
  · intro V env strCast d hall
    unfold DefinitionG.initializer
    rw [resolveEnvG_all_none hall]
    rfl

/-- Witness for the amended C2 at concrete inputs: a present but
transform-rejected `A` is skipped; a `Parse`-rejected first value falls
straight to the default 7; a transform-rejected generic source is
skipped; all generic sources rejected resolves to the default 7. -/
theorem env_rejection_continuation_amended_witness :
    firstEnvValue envBadB [evARejecting, evB] = firstEnvValue envBadB [evB] ∧
    (GetScope envBadB regAB 1 scEmpty 1).1 = .ok 7 ∧
    resolveEnvG envBadB (none : Option (String → Int)) [egReject, egParse2] =
      resolveEnvG envBadB none [egParse2] ∧
    DefinitionG.initializer envNone none defGAB freshStateG =
      { current := some (7 : Int), origin := OriginDefault } := by
  refine ⟨?_, ?_, ?_, ?_⟩
  · exact env_rejection_continuation_amended.1 envBadB evARejecting
      (fun _ => "") "bad" [evB] rfl rfl rfl
  · exact (env_rejection_continuation_amended.2.1 Int envBadB regAB scEmpty 1
      defAB 0 [] [evB] evA parse2 "knobs: invalid value" rfl rfl rfl
      (by intro e2 h2; exact absurd h2 (List.not_mem_nil e2))
      (by decide) rfl rfl).1
  · exact env_rejection_continuation_amended.2.2.1 Int envBadB none egReject
      [egParse2] rfl
  · exact env_rejection_continuation_amended.2.2.2 Int envNone none defGAB
      (by intro e h; fin_cases h <;> rfl)

/-- C3.  For a derived knob (a stored state with no value of its own and
a positive parent id): (1) `Get` on the derived knob is exactly `Get`
on the parent in the same scope — re-resolved at every call, since the
equation holds for the current scope whatever earlier operations
produced it; (2) hence a later parent `Set` stays visible through the
derived knob; (3) after a successful `Set` on the derived knob, `Get`
returns the written value; and (4) parent `Set`s after that no longer
affect the derived knob's `Get` result. -/
theorem derived_tracks_parent_until_set :
    ∀ (V : Type) (env : EnvMap) (reg : Registry V) (sc : Scope V)
      (dk p : Int) (sD : State V),
      lookupL sc.states dk = some sD →
      sD.current = none →
      sD.parent = p →
      0 < p →
      dk ≠ p →
      (∀ fuel : Nat,
        GetScope env reg (fuel + 1) sc dk = GetScope env reg fuel sc p) ∧
      (∀ (v : V) (fuel : Nat),
        (GetScope env reg (fuel + 1 + 1)
            ((SetScope env reg sc p OriginCode v).2) dk).1 = .ok v) ∧
      (∀ (w : V) (fuel : Nat),
        (GetScope env reg (fuel + 1)
            ((SetScope env reg sc dk OriginCode w).2) dk).1 = .ok w) ∧
      (∀ (w v : V) (origin : Origin) (fuel : Nat),
        (GetScope env reg (fuel + 1)
            ((SetScope env reg ((SetScope env reg sc dk OriginCode w).2)
                p origin v).2) dk).1 = .ok w) := by
  intro V env reg sc dk p sD hlook hcur hpar hp hne
  have hparpos : 0 < sD.parent := by rw [hpar]; exact hp
  refine ⟨?_, ?_, ?_, ?_⟩
  · intro fuel
    rw [GetScope_found_parent env reg sc dk fuel sD hlook hcur hparpos, hpar]
  · intro v fuel
    have hpres : lookupL ((SetScope env reg sc p OriginCode v).2).states dk =
        some sD := by
      rw [SetScope_lookup_other env reg sc OriginCode v (Ne.symm hne)]
      exact hlook
    rw [GetScope_found_parent env reg _ dk (fuel + 1) sD hpres hcur hparpos, hpar]
    have hself : lookupL ((SetScope env reg sc p OriginCode v).2).states p =
        some ({ (Scope.get env reg sc p).1 with
                  origin := OriginCode, current := some v }) := by
      simp only [SetScope_code env reg sc p v]
      exact lookupL_insertL_self _ _ _
    rw [GetScope_found_current env reg _ p fuel _ v hself rfl]
  · intro w fuel
    have hself : lookupL ((SetScope env reg sc dk OriginCode w).2).states dk =
        some ({ sD with origin := OriginCode, current := some w }) := by
      simp only [SetScope_code env reg sc dk w,
        Scope.get_found env reg sc dk sD hlook]
      exact lookupL_insertL_self _ _ _
    rw [GetScope_found_current env reg _ dk fuel _ w hself rfl]
  · intro w v origin fuel
    have hself : lookupL ((SetScope env reg sc dk OriginCode w).2).states dk =
        some ({ sD with origin := OriginCode, current := some w }) := by
      simp only [SetScope_code env reg sc dk w,
        Scope.get_found env reg sc dk sD hlook]
      exact lookupL_insertL_self _ _ _
    have hpres : lookupL ((SetScope env reg
        ((SetScope env reg sc dk OriginCode w).2) p origin v).2).states dk =
        some ({ sD with origin := OriginCode, current := some w }) := by
      rw [SetScope_lookup_other env reg _ origin v (Ne.symm hne)]
      exact hself
    rw [GetScope_found_current env reg _ dk fuel _ w hpres rfl]

/-- Witness for C3 at concrete inputs: knob 2 derived from knob 1.
Its `Get` equals the parent's `Get`; a parent `Set` of 42 is seen
through it; its own `Set` of 9 is returned; and a parent `Set` of 42
after that no longer changes its result. -/
theorem derived_tracks_parent_until_set_witness :
    GetScope envNone regPlain 2 scDerived 2 =
      GetScope envNone regPlain 1 scDerived 1 ∧
    (GetScope envNone regPlain 2
        ((SetScope envNone regPlain scDerived 1 OriginCode 42).2) 2).1 =
      .ok 42 ∧
    (GetScope envNone regPlain 1
        ((SetScope envNone regPlain scDerived 2 OriginCode 9).2) 2).1 =
      .ok 9 ∧
    (GetScope envNone regPlain 1
        ((SetScope envNone regPlain
            ((SetScope envNone regPlain scDerived 2 OriginCode 9).2)
            1 OriginCode 42).2) 2).1 = .ok 9 := by
  have H := derived_tracks_parent_until_set Int envNone regPlain scDerived 2 1
    { definition := none, current := none, origin := OriginDefault,
      parent := 1, onceDone := false, initCount := 0 }
    rfl rfl rfl (by decide) (by decide)
  exact ⟨H.1 1, H.2.1 42 0, H.2.2.1 9 0, H.2.2.2 9 42 OriginCode 0⟩

/-- C4.  For every knob handle — registered, derived, or even never
registered — and every value `v`, `Set` with origin `Code` succeeds
regardless of the definition's declared allowed origins (the origin
check is skipped for `Code`), and a subsequent `Get` of the same handle
in the same scope returns `v`. -/
theorem set_code_always_succeeds :
    ∀ (V : Type) (env : EnvMap) (reg : Registry V) (sc : Scope V)
      (kn : Int) (v : V) (fuel : Nat),
      (SetScope env reg sc kn OriginCode v).1 = .ok () ∧
      (GetScope env reg (fuel + 1)
          ((SetScope env reg sc kn OriginCode v).2) kn).1 = .ok v := by
  intro V env reg sc kn v fuel
  constructor
  · rw [SetScope_code env reg sc kn v]
  · have hself : lookupL ((SetScope env reg sc kn OriginCode v).2).states kn =
        some ({ (Scope.get env reg sc kn).1 with
                  origin := OriginCode, current := some v }) := by
      simp only [SetScope_code env reg sc kn v]
      exact lookupL_insertL_self _ _ _
    rw [GetScope_found_current env reg _ kn fuel _ v hself rfl]

/-- Counterexample to C5.  For a derived knob (its state has a nil
definition) a `Set` with a non-`Code` origin is not a silent no-op: the
`s.origins` read dereferences the nil embedded `*definition` pointer —
a runtime panic, not a silent drop. -/
theorem set_disallowed_origin_derived_counterexample :
    (SetScope envNone regPlain scDerived 2 OriginEnv 42).1 =
      .error Fault.nilDefinitionField ∧
    (SetScope envNone regPlain scDerived 2 OriginEnv 42).1 ≠ .ok () := by
  have h1 : (SetScope envNone regPlain scDerived 2 OriginEnv 42).1 =
      .error Fault.nilDefinitionField := rfl
  refine ⟨h1, ?_⟩
  rw [h1]
  simp

/-- C5 as amended.  For a knob whose state carries a definition
(freshly created from the registry, part 1, or already stored, part 2),
`Set` with an origin that is neither `Code` nor in the definition's
allowed-origin set is a silent no-op: it reports nothing and leaves the
state unchanged, so a subsequent `Get` returns the prior value.  For a
state with no definition — a derived or unregistered knob — a non-`Code`
`Set` instead faults on the nil-definition dereference (part 3). -/
theorem set_disallowed_origin_amended :
    (∀ (V : Type) (env : EnvMap) (reg : Registry V) (sc : Scope V)
        (k : Int) (d : Definition V) (origin : Origin) (v : V),
        lookupL reg k = some d →
        lookupL sc.states k = none →
        origin ≠ OriginCode →
        origin ∉ d.Origins →
        (SetScope env reg sc k origin v).1 = .ok () ∧
        (SetScope env reg sc k origin v).2 = (Scope.get env reg sc k).2 ∧
        ∀ fuel : Nat,
          (GetScope env reg (fuel + 1)
              ((SetScope env reg sc k origin v).2) k).1 =
            (GetScope env reg (fuel + 1) sc k).1) ∧
    (∀ (V : Type) (env : EnvMap) (reg : Registry V) (sc : Scope V)
        (k : Int) (s : State V) (d : Definition V) (origin : Origin) (v : V),
        lookupL sc.states k = some s →
        s.definition = some d →
        origin ≠ OriginCode →
        origin ∉ d.Origins →
        SetScope env reg sc k origin v = (.ok (), sc)) ∧
    (∀ (V : Type) (env : EnvMap) (reg : Registry V) (sc : Scope V)
        (k : Int) (s : State V) (origin : Origin) (v : V),
        lookupL sc.states k = some s →
        s.definition = none →
        origin ≠ OriginCode →
        SetScope env reg sc k origin v = (.error .nilDefinitionField, sc)) := by
  refine ⟨?_, ?_, ?_⟩
  · intro V env reg sc k d origin v hreg habs ho hmem
    have hget := Scope.get_fresh_registered env reg sc k d hreg habs
    have hd : ((Scope.get env reg sc k).1).definition = some d := by
      rw [hget]
      exact resolvedState_definition env d
    have hset := SetScope_disallowed env reg sc k origin v d ho hd hmem
    obtain ⟨w, hw⟩ := Option.isSome_iff_exists.mp
      (resolvedState_current_isSome env d)
    refine ⟨by rw [hset], by rw [hset], ?_⟩
    intro fuel
    have hlookup : lookupL ((SetScope env reg sc k origin v).2).states k =
        some (resolvedState env d) := by
      rw [hset, hget]
      exact lookupL_insertL_self _ _ _
    rw [GetScope_found_current env reg _ k fuel _ w hlookup hw,
      GetScope_fresh_registered env reg sc k d fuel w hreg habs hw]
  · intro V env reg sc k s d origin v hlook hds ho hmem
    have hd : ((Scope.get env reg sc k).1).definition = some d := by
      rw [Scope.get_found env reg sc k s hlook]
      exact hds
    rw [SetScope_disallowed env reg sc k origin v d ho hd hmem,
      Scope.get_found env reg sc k s hlook]
  · intro V env reg sc k s origin v hlook hdn ho
    have hd : ((Scope.get env reg sc k).1).definition = none := by
      rw [Scope.get_found env reg sc k s hlook]
      exact hdn
    rw [SetScope_nil_definition env reg sc k origin v ho hd,
      Scope.get_found env reg sc k s hlook]

/-- Witness for the amended C5 at concrete inputs: a `Set` with the
caller-defined origin 5 (not allowed by the definitions, which declare
no extra origins) reports ok, changes nothing observable through `Get`,
and leaves an already-resolved scope exactly as it was; a non-`Code`
`Set` on a derived knob faults. -/
theorem set_disallowed_origin_amended_witness :
    (SetScope envNone regAB scEmpty 1 5 99).1 = .ok () ∧
    (GetScope envNone regAB 1 ((SetScope envNone regAB scEmpty 1 5 99).2) 1).1 =
      (GetScope envNone regAB 1 scEmpty 1).1 ∧
    SetScope envNone regPlain ((GetScope envNone regPlain 1 scEmpty 1).2)
        1 5 99 =
      (.ok (), (GetScope envNone regPlain 1 scEmpty 1).2) ∧
    SetScope envNone regPlain scDerived 2 3 5 =
      (.error Fault.nilDefinitionField, scDerived) := by
  refine ⟨?_, ?_, ?_, ?_⟩
  · exact (set_disallowed_origin_amended.1 Int envNone regAB scEmpty 1 defAB
      5 99 rfl rfl (by decide) (by decide)).1
  · exact (set_disallowed_origin_amended.1 Int envNone regAB scEmpty 1 defAB
      5 99 rfl rfl (by decide) (by decide)).2.2 0
  · exact set_disallowed_origin_amended.2.1 Int envNone regPlain
      ((GetScope envNone regPlain 1 scEmpty 1).2) 1
      (resolvedState envNone defPlain) defPlain 5 99 rfl rfl
      (by decide) (by decide)
  · exact set_disallowed_origin_amended.2.2 Int envNone regPlain scDerived 2
      { definition := none, current := none, origin := OriginDefault,
        parent := 1, onceDone := false, initCount := 0 }
      3 5 rfl rfl (by decide)

/-- C6 evaluated at the failing input (code bug).  Knob id 1 was never
registered (empty registry) and has no state in the fresh scope.  The
claim — and the source's own comment in `GetScope` ("we fail graciously
by returning the zero value") — says `Get` returns the zero value and
`Set` is a no-op, with no hard fault.  Instead: `Scope.get` creates a
definition-less state, so `Get` reaches `s.current.(T)` with a nil
`current` and panics; `Set` with origin `Code` is not a no-op (it
stores the value, observable by the following `Get`); and `Set` with a
non-`Code` origin panics on the nil-definition dereference. -/
theorem unregistered_handle_faults_failing_input :
    (GetScope envNone ([] : Registry Int) 3 scEmpty 1).1 =
      .error Fault.nilTypeAssertion ∧
    (SetScope envNone ([] : Registry Int) scEmpty 1 OriginCode 42).1 =
      .ok () ∧
    (GetScope envNone ([] : Registry Int) 1
        ((SetScope envNone ([] : Registry Int) scEmpty 1 OriginCode 42).2)
        1).1 = .ok 42 ∧
    (SetScope envNone ([] : Registry Int) scEmpty 1 OriginEnv 42).1 =
      .error Fault.nilDefinitionField :=
  ⟨rfl, rfl, rfl, rfl⟩

/-- C8.  Two distinct scopes (distinct entries of the world of live
scope objects) resolve independently: a `SetScope` through one scope
pointer leaves the other scope's entire state table unchanged, so any
`GetScope` through the other pointer returns exactly what it returned
before the `Set`. -/
theorem scopes_resolve_independently :
    ∀ (V : Type) (env : EnvMap) (reg : Registry V) (w : World V)
      (sid1 sid2 kn kn2 : Int) (origin : Origin) (v : V) (fuel : Nat),
      sid1 ≠ sid2 →
      lookupL ((World.setScope env reg w sid1 kn origin v).scopes) sid2 =
        lookupL w.scopes sid2 ∧
      World.getScope env reg (World.setScope env reg w sid1 kn origin v)
          fuel sid2 kn2 =
        World.getScope env reg w fuel sid2 kn2 := by
  intro V env reg w sid1 sid2 kn kn2 origin v fuel hne
  have hl : lookupL ((World.setScope env reg w sid1 kn origin v).scopes) sid2 =
      lookupL w.scopes sid2 := by
    unfold World.setScope
    rcases hlook : lookupL w.scopes sid1 with _ | sc
    · rfl
    · exact lookupL_insertL_ne _ _ hne
  refine ⟨hl, ?_⟩
  unfold World.getScope
  rw [hl]

/-- Witness for C8 at concrete inputs: in a world with two scopes, a
`Set` through scope 1 leaves scope 2's table entry and `Get` result
unchanged. -/
theorem scopes_resolve_independently_witness :
    lookupL ((World.setScope envNone regPlain wTwo 1 1 OriginCode 5).scopes) 2 =
      lookupL wTwo.scopes 2 ∧
    World.getScope envNone regPlain
        (World.setScope envNone regPlain wTwo 1 1 OriginCode 5) 1 2 1 =
      World.getScope envNone regPlain wTwo 1 2 1 :=
  scopes_resolve_independently Int envNone regPlain wTwo 1 2 1 1 OriginCode 5 1
    (by decide)

/-- C9.  In the generic revision, an `EnvVar[T]` with a nil transform
over a non-string type parameter (`strCast = none` reflects the failing
`any(zero).(string)` runtime test) yields `(zero, false)` even when the
variable is set, so the resolution scan always skips such a source and
falls through to later sources or the default. -/
theorem nil_transform_non_string_yields_nothing :
    ∀ (V : Type) (env : EnvMap) (e : EnvVarG V) (raw : String)
      (rest : List (EnvVarG V)),
      e.transform = none →
      env e.key = some raw →
      EnvVarG.getValue env none e = none ∧
      resolveEnvG env none (e :: rest) = resolveEnvG env none rest := by
  intro V env e raw rest ht henv
  have hget : EnvVarG.getValue env (none : Option (String → V)) e = none := by
    simp [EnvVarG.getValue, henv, ht]
  exact ⟨hget, by simp [resolveEnvG, hget]⟩

/-- Witness for C9 at concrete inputs: source `K` (no transform, over
`Int`) with `K = "5"` set yields nothing and is skipped by the scan. -/
theorem nil_transform_non_string_yields_nothing_witness :
    EnvVarG.getValue envK (none : Option (String → Int)) egPlainK = none ∧
    resolveEnvG envK (none : Option (String → Int)) [egPlainK] =
      resolveEnvG envK none [] :=
  nil_transform_non_string_yields_nothing Int envK egPlainK "5" [] rfl rfl

/-- Stored and returned coincide: `Scope.get` always leaves the state
it returns in the table under the requested id. -/
theorem Scope.get_stores_self {V : Type} (env : EnvMap) (reg : Registry V)
    (sc : Scope V) (kn : Int) :
    lookupL ((Scope.get env reg sc kn).2).states kn =
      some (Scope.get env reg sc kn).1 := by
  rcases hlook : lookupL sc.states kn with _ | s
  · rw [Scope.get_fresh env reg sc kn hlook]
    exact lookupL_insertL_self _ _ _
  · rw [Scope.get_found env reg sc kn s hlook]
    exact hlook

/-- C10.  `Scope.get` constructs, stores, and returns a state for every
knob identifier, registered or not (part 1 — its result type in the
embedding is a plain state, never an option, mirroring that no Go
return path yields nil, which is what makes `GetScope`'s nil-state
fallback branch unreachable); consequently a single `Get` on any id
leaves a state entry in the scope's table (part 2). -/
theorem scope_get_always_stores_state :
    (∀ (V : Type) (env : EnvMap) (reg : Registry V) (sc : Scope V) (kn : Int),
        lookupL ((Scope.get env reg sc kn).2).states kn =
          some (Scope.get env reg sc kn).1) ∧
    (∀ (V : Type) (env : EnvMap) (reg : Registry V) (fuel : Nat)
        (sc : Scope V) (kn : Int),
        (lookupL ((GetScope env reg (fuel + 1) sc kn).2).states kn).isSome) := by
  refine ⟨fun V env reg sc kn => Scope.get_stores_self env reg sc kn, ?_⟩
  intro V env reg fuel sc kn
  rcases hget : Scope.get env reg sc kn with ⟨s, sc1⟩
  have h1 : lookupL sc1.states kn = some s := by
    have h := Scope.get_stores_self env reg sc kn
    rw [hget] at h
    exact h
  rw [GetScope, hget]
  dsimp only
  rcases hcur : s.current with _ | v
  · dsimp only
    split
    · have h2 := GetScope_preserves env reg fuel sc1 s.parent kn s h1
      simp [h2]
    · simp [h1]
  · simp [h1]

/-! ## Invariant lemmas for the once-only initializer -/

theorem State.init_initCount_le {V : Type} (env : EnvMap) (s : State V)
    (h : s.initCount = 0) : (State.init env s).initCount ≤ 1 := by
  unfold State.init
  cases hd : s.definition with
  | none => simp [h]
  | some d =>
    dsimp only
    split
    · simp [h]
    · rw [(initializer_meta env d
        { definition := some d, current := s.current, origin := s.origin,
          parent := s.parent, onceDone := true,
          initCount := s.initCount + 1 }).2.2.2]
      simp [h]

theorem ScopeCountInv.insert {V : Type} {sc : Scope V} (h : ScopeCountInv sc)
    {kn : Int} {s : State V} (hs : s.initCount ≤ 1) :
    ScopeCountInv { states := insertL sc.states kn s } := by
  intro k s2 hk
  by_cases hkk : kn = k
  · subst hkk
    rw [show ({ states := insertL sc.states kn s } : Scope V).states =
      insertL sc.states kn s from rfl, lookupL_insertL_self] at hk
    obtain rfl := Option.some.inj hk
    exact hs
  · rw [show ({ states := insertL sc.states kn s } : Scope V).states =
      insertL sc.states kn s from rfl, lookupL_insertL_ne _ _ hkk] at hk
    exact h k s2 hk

theorem scopeGet_inv {V : Type} (env : EnvMap) (reg : Registry V)
    (sc : Scope V) (kn : Int) (h : ScopeCountInv sc) :
    ScopeCountInv (Scope.get env reg sc kn).2 := by
  rcases hlook : lookupL sc.states kn with _ | s2
  · rw [Scope.get_fresh env reg sc kn hlook]
    exact h.insert (State.init_initCount_le env _ rfl)
  · rw [Scope.get_found env reg sc kn s2 hlook]
    exact h

theorem scopeGet_fst_count {V : Type} (env : EnvMap) (reg : Registry V)
    (sc : Scope V) (kn : Int) (h : ScopeCountInv sc) :
    ((Scope.get env reg sc kn).1).initCount ≤ 1 := by
  rcases hlook : lookupL sc.states kn with _ | s2
  · rw [Scope.get_fresh env reg sc kn hlook]
    exact State.init_initCount_le env _ rfl
  · rw [Scope.get_found env reg sc kn s2 hlook]
    exact h kn s2 hlook

theorem getScope_inv {V : Type} (env : EnvMap) (reg : Registry V)
    (fuel : Nat) :
    ∀ (sc : Scope V) (kn : Int), ScopeCountInv sc →
      ScopeCountInv (GetScope env reg fuel sc kn).2 := by
  induction fuel with
  | zero => intro sc kn h; exact h
  | succ fuel ih =>
    intro sc kn h
    rcases hget : Scope.get env reg sc kn with ⟨s, sc1⟩
    have h1 : ScopeCountInv sc1 := by
      have h2 := scopeGet_inv env reg sc kn h
      rw [hget] at h2
      exact h2
    rw [GetScope, hget]
    dsimp only
    rcases s.current with _ | v
    · dsimp only
      split
      · exact ih sc1 s.parent h1
      · exact h1
    · exact h1

theorem setScope_inv {V : Type} (env : EnvMap) (reg : Registry V)
    (sc : Scope V) (kn : Int) (origin : Origin) (v : V)
    (h : ScopeCountInv sc) :
    ScopeCountInv (SetScope env reg sc kn origin v).2 := by
  rcases hget : Scope.get env reg sc kn with ⟨s, sc1⟩
  have h1 : ScopeCountInv sc1 := by
    have h2 := scopeGet_inv env reg sc kn h
    rw [hget] at h2
    exact h2
  have hcount : s.initCount ≤ 1 := by
    have h2 := scopeGet_fst_count env reg sc kn h
    rw [hget] at h2
    exact h2
  unfold SetScope
  rw [hget]
  dsimp only
  split
  · exact h1.insert hcount
  · rcases s.definition with _ | d
    · exact h1
    · dsimp only
      split
      · exact h1.insert hcount
      · exact h1

theorem deriveScope_inv {V : Type} (sc : Scope V) (parent dk : Int)
    (h : ScopeCountInv sc) : ScopeCountInv (DeriveScope sc parent dk) :=
  h.insert (Nat.zero_le 1)

theorem SetScope_lookup_self {V : Type} (env : EnvMap) (reg : Registry V)
    (sc : Scope V) (kn : Int) (origin : Origin) (v : V) (s : State V)
    (hlook : lookupL sc.states kn = some s) :
    ∃ s2, lookupL ((SetScope env reg sc kn origin v).2).states kn = some s2 ∧
      s2.initCount = s.initCount := by
  have hget : Scope.get env reg sc kn = (s, sc) :=
    Scope.get_found env reg sc kn s hlook
  unfold SetScope
  rw [hget]
  dsimp only
  split
  · exact ⟨_, lookupL_insertL_self _ _ _, rfl⟩
  · rcases s.definition with _ | d
    · exact ⟨s, hlook, rfl⟩
    · dsimp only
      split
      · exact ⟨_, lookupL_insertL_self _ _ _, rfl⟩
      · exact ⟨s, hlook, rfl⟩

theorem stepOp_inv {V : Type} (env : EnvMap) (reg : Registry V) (fuel : Nat)
    (sc : Scope V) (op : Op V) (h : ScopeCountInv sc) :
    ScopeCountInv (stepOp env reg fuel sc op) := by
  cases op with
  | get kn => exact getScope_inv env reg fuel sc kn h
  | set kn origin v => exact setScope_inv env reg sc kn origin v h
  | derive parent dk => exact deriveScope_inv sc parent dk h

/-- C7.  Part 1: over any trace of exported operations — each of which
is atomic under the scope and state locks and the `sync.Once` barrier,
so arbitrary concurrent interleavings are exactly these sequences —
every state a scope holds has seen its initializer body run at most
once.  Part 2: an existing state's initializer-run count never changes
again (`Scope.get` returns stored states without re-initializing, `Set`
overwrites `current`/`origin` only), for any operation other than a
`Derive` allocated at that same id — in the source `Derive` ids come
from the fresh global counter, so they never collide with a live id.
In particular, once `current` is set by initialization or by `Set`,
lazy resolution never re-runs for that state. -/
theorem state_init_at_most_once :
    (∀ (V : Type) (env : EnvMap) (reg : Registry V) (fuel : Nat)
        (sc : Scope V) (ops : List (Op V)),
        ScopeCountInv sc →
        ScopeCountInv (runOps env reg fuel sc ops)) ∧
    (∀ (V : Type) (env : EnvMap) (reg : Registry V) (fuel : Nat)
        (sc : Scope V) (op : Op V) (k : Int) (s : State V),
        lookupL sc.states k = some s →
        (∀ p, op ≠ Op.derive p k) →
        ∃ s2, lookupL (stepOp env reg fuel sc op).states k = some s2 ∧
          s2.initCount = s.initCount) := by
  constructor
  · intro V env reg fuel sc ops
    induction ops generalizing sc with
    | nil => intro h; exact h
    | cons op rest ih =>
      intro h
      exact ih (stepOp env reg fuel sc op) (stepOp_inv env reg fuel sc op h)
  · intro V env reg fuel sc op k s hlook hnd
    cases op with
    | get kn =>
      exact ⟨s, GetScope_preserves env reg fuel sc kn k s hlook, rfl⟩
    | set kn origin v =>
      by_cases hkk : kn = k
      · subst hkk
        have h2 := SetScope_lookup_self env reg sc kn origin v s hlook
        simpa [stepOp] using h2
      · refine ⟨s, ?_, rfl⟩
        dsimp only [stepOp]
        rw [SetScope_lookup_other env reg sc origin v hkk]
        exact hlook
    | derive parent dk =>
      have hdk : dk ≠ k := by
        intro he
        subst he
        exact hnd parent rfl
      refine ⟨s, ?_, rfl⟩
      dsimp only [stepOp, DeriveScope]
      rw [lookupL_insertL_ne _ _ hdk]
      exact hlook

/-- Witness for C7 at concrete inputs: a trace of repeated gets, a set,
a derive and another get keeps every state's initializer count at most
1 starting from the empty scope; and a `Set` step on a derived knob's
existing state leaves its count unchanged. -/
theorem state_init_at_most_once_witness :
    ScopeCountInv (runOps envNone regPlain 2 scEmpty
      [Op.get 1, Op.get 1, Op.set 1 OriginCode 5, Op.derive 1 2, Op.get 2]) ∧
    ∃ s2, lookupL (stepOp envNone regPlain 1 scDerived
        (Op.set 2 OriginCode 5)).states 2 = some s2 ∧
      s2.initCount = 0 := by
  constructor
  · exact state_init_at_most_once.1 Int envNone regPlain 2 scEmpty
      [Op.get 1, Op.get 1, Op.set 1 OriginCode 5, Op.derive 1 2, Op.get 2]
      (by intro k s h; simp [scEmpty, lookupL] at h)
  · exact state_init_at_most_once.2 Int envNone regPlain 1 scDerived
      (Op.set 2 OriginCode 5) 2
      { definition := none, current := none, origin := OriginDefault,
        parent := 1, onceDone := false, initCount := 0 }
      rfl (by intro p h; exact Op.noConfusion h)

end Knobs
